import Mathlib

/-!
Verification of the subprocess lifecycle / JSON-RPC proxying core of the
mcp-catalog server (`src/subprocess_manager.py`, `src/dynamic_registry.py`,
`src/main.py`), as a shallow embedding: Python dictionaries become ordered
association lists, `asyncio` futures become explicit pending/resolved maps,
and each `async` method is split at its genuine suspension points into pure
state-transition functions.  Failure of external operations (process spawn,
signal delivery, child responses) is supplied by explicit behaviour
parameters, since those outcomes come from the operating system.
-/

namespace MCPCatalog

/-- JSON values, the payload type of all JSON-RPC traffic and of the loaded
configuration dictionaries. -/
inductive Json where
  | null
  | bool (b : Bool)
  | num (n : Int)
  | str (s : String)
  | arr (elems : List Json)
  | obj (fields : List (String × Json))
deriving Repr

namespace Json

/- Decidable equality for `Json`, written by hand because the nested
occurrence of `Json` under `List` defeats automatic derivation. -/
mutual

def decEq : (a b : Json) → Decidable (a = b)
  | .null, .null => isTrue rfl
  | .bool x, .bool y =>
      if h : x = y then isTrue (by rw [h])
      else isFalse (by intro hc; cases hc; exact h rfl)
  | .num x, .num y =>
      if h : x = y then isTrue (by rw [h])
      else isFalse (by intro hc; cases hc; exact h rfl)
  | .str x, .str y =>
      if h : x = y then isTrue (by rw [h])
      else isFalse (by intro hc; cases hc; exact h rfl)
  | .arr xs, .arr ys =>
      match decEqList xs ys with
      | isTrue h => isTrue (by rw [h])
      | isFalse h => isFalse (by intro hc; cases hc; exact h rfl)
  | .obj xs, .obj ys =>
      match decEqFields xs ys with
      | isTrue h => isTrue (by rw [h])
      | isFalse h => isFalse (by intro hc; cases hc; exact h rfl)
  | .null, .bool _ => isFalse (by intro hc; cases hc)
  | .null, .num _ => isFalse (by intro hc; cases hc)
  | .null, .str _ => isFalse (by intro hc; cases hc)
  | .null, .arr _ => isFalse (by intro hc; cases hc)
  | .null, .obj _ => isFalse (by intro hc; cases hc)
  | .bool _, .null => isFalse (by intro hc; cases hc)
  | .bool _, .num _ => isFalse (by intro hc; cases hc)
  | .bool _, .str _ => isFalse (by intro hc; cases hc)
  | .bool _, .arr _ => isFalse (by intro hc; cases hc)
  | .bool _, .obj _ => isFalse (by intro hc; cases hc)
  | .num _, .null => isFalse (by intro hc; cases hc)
  | .num _, .bool _ => isFalse (by intro hc; cases hc)
  | .num _, .str _ => isFalse (by intro hc; cases hc)
  | .num _, .arr _ => isFalse (by intro hc; cases hc)
  | .num _, .obj _ => isFalse (by intro hc; cases hc)
  | .str _, .null => isFalse (by intro hc; cases hc)
  | .str _, .bool _ => isFalse (by intro hc; cases hc)
  | .str _, .num _ => isFalse (by intro hc; cases hc)
  | .str _, .arr _ => isFalse (by intro hc; cases hc)
  | .str _, .obj _ => isFalse (by intro hc; cases hc)
  | .arr _, .null => isFalse (by intro hc; cases hc)
  | .arr _, .bool _ => isFalse (by intro hc; cases hc)
  | .arr _, .num _ => isFalse (by intro hc; cases hc)
  | .arr _, .str _ => isFalse (by intro hc; cases hc)
  | .arr _, .obj _ => isFalse (by intro hc; cases hc)
  | .obj _, .null => isFalse (by intro hc; cases hc)
  | .obj _, .bool _ => isFalse (by intro hc; cases hc)
  | .obj _, .num _ => isFalse (by intro hc; cases hc)
  | .obj _, .str _ => isFalse (by intro hc; cases hc)
  | .obj _, .arr _ => isFalse (by intro hc; cases hc)

def decEqList : (a b : List Json) → Decidable (a = b)
  | [], [] => isTrue rfl
  | [], _ :: _ => isFalse (by intro hc; cases hc)
  | _ :: _, [] => isFalse (by intro hc; cases hc)
  | x :: xs, y :: ys =>
      match decEq x y, decEqList xs ys with
      | isTrue h1, isTrue h2 => isTrue (by rw [h1, h2])
      | isFalse h1, _ => isFalse (by intro hc; cases hc; exact h1 rfl)
      | _, isFalse h2 => isFalse (by intro hc; cases hc; exact h2 rfl)

def decEqFields : (a b : List (String × Json)) → Decidable (a = b)
  | [], [] => isTrue rfl
  | [], _ :: _ => isFalse (by intro hc; cases hc)
  | _ :: _, [] => isFalse (by intro hc; cases hc)
  | (k1, v1) :: xs, (k2, v2) :: ys =>
      if hk : k1 = k2 then
        match decEq v1 v2, decEqFields xs ys with
        | isTrue hv, isTrue ht => isTrue (by rw [hk, hv, ht])
        | isFalse hv, _ => isFalse (by intro hc; cases hc; exact hv rfl)
        | _, isFalse ht => isFalse (by intro hc; cases hc; exact ht rfl)
      else isFalse (by intro hc; cases hc; exact hk rfl)

end

instance : DecidableEq Json := decEq

/-- Lookup `d.get(k)` on a Python dict represented as an object: first matching
field, if any.  Non-objects have no fields. -/
def getField : Json → String → Option Json
  | .obj fields, k => fields.lookup k
  | _, _ => none

/-- Containment `k in d`: does the object have the field? -/
def hasField (j : Json) (k : String) : Bool := (j.getField k).isSome

/-- Lookup with default, `d.get(k, default)`. -/
def getFieldD (j : Json) (k : String) (d : Json) : Json := (j.getField k).getD d

/-- Python truthiness of a JSON value (`if value:`). -/
def truthy : Json → Bool
  | .null => false
  | .bool b => b
  | .num n => n != 0
  | .str s => s != ""
  | .arr xs => !xs.isEmpty
  | .obj fs => !fs.isEmpty

/-- The elements of a JSON array (`for x in v:`); non-arrays contribute
nothing (well-formed responses always carry arrays here). -/
def asArr : Json → List Json
  | .arr xs => xs
  | _ => []

/-- The fields of a JSON object; non-objects contribute nothing. -/
def objFields : Json → List (String × Json)
  | .obj fs => fs
  | _ => []

end Json

/-- Python dict assignment `d[k] = v` on an ordered association list:
replace in place if the key is present, otherwise append. -/
def listSet {α : Type} [DecidableEq α] {β : Type} :
    List (α × β) → α → β → List (α × β)
  | [], k, v => [(k, v)]
  | (k', v') :: rest, k, v =>
      if k' = k then (k', v) :: rest else (k', v') :: listSet rest k v

/-- Python `del d[k]` / `d.pop(k)` key removal: drop the first matching
entry. -/
def listErase {α : Type} [DecidableEq α] {β : Type} :
    List (α × β) → α → List (α × β)
  | [], _ => []
  | (k', v') :: rest, k =>
      if k' = k then rest else (k', v') :: listErase rest k

/-- The `MCPProcess` dataclass of `subprocess_manager.py`: the handle stored in
`SubprocessManager.processes`.  The stream objects carry no state that the
verified logic reads, so only the name is kept. -/
structure MCPProcess where
  server_name : String
deriving Repr, DecidableEq

/-- State of a `SubprocessManager` together with the child processes it has
spawned.  `pending_requests` holds the ids whose `asyncio.Future` is still
unresolved (the Python dict maps each such id to its future; a future is
popped from the dict in the same step that resolves it, so the dict only
ever holds unresolved ones).  `resolvedFutures` records the values delivered
to futures that were popped and resolved — the awaiting caller still holds a
reference and will observe that value when it resumes.  `liveChildren`
tracks, by server name, the child OS processes that have been spawned and
not successfully terminated. -/
structure ManagerState where
  processes : List (String × MCPProcess)
  pending_requests : List String
  resolvedFutures : List (String × Json)
  liveChildren : List String
deriving Repr, DecidableEq

/-- The membership test `response["id"] in self.pending_requests`: the id taken from the wire is
a JSON value, the dict keys are the UUID strings chosen by `execute_tool`. -/
def idMatchesKey (idJson : Json) (key : String) : Bool :=
  match idJson with
  | .str s => s == key
  | _ => false

/-- The value `_handle_response` resolves the future with: the `error` field
wrapped as an error object if present, else the `result` field, else an
invalid-format error. -/
def setResultValue (response : Json) : Json :=
  match response.getField "error" with
  | some e => .obj [("error", e)]
  | none =>
      match response.getField "result" with
      | some r => r
      | none => .obj [("error", .str "Invalid response format")]

/-- Translation of `SubprocessManager._handle_response`: if the message carries an id that
is a pending request, pop that future and resolve it; otherwise (unknown id,
or a notification carrying only `method`) nothing but logging happens. -/
def handle_response (st : ManagerState) (response : Json) : ManagerState :=
  match response.getField "id" with
  | some idJson =>
      match st.pending_requests.find? (fun k => idMatchesKey idJson k) with
      | some key =>
          { st with
            pending_requests := st.pending_requests.erase key
            resolvedFutures := st.resolvedFutures ++ [(key, setResultValue response)] }
      | none => st
  | none => st

/-- The `tools/call` JSON-RPC request built by `execute_tool`. -/
def toolCallRequest (tool_name : String) (arguments : Json) (request_id : String) : Json :=
  .obj [ ("jsonrpc", .str "2.0"),
         ("method", .str "tools/call"),
         ("params", .obj [("name", .str tool_name), ("arguments", arguments)]),
         ("id", .str request_id) ]

/-- Where `execute_tool` stands after its code up to the `asyncio.wait_for`:
either it returned early because the server is not running, or it has
registered the pending id, written the request, and is suspended. -/
inductive ExecPhase where
  | notRunning (err : Json)
  | awaiting (request_id : String)
deriving Repr, DecidableEq

/-- First half of `SubprocessManager.execute_tool` (everything before the
suspension at `asyncio.wait_for`): check the server is running, create the
future under a fresh UUID id, and write the `tools/call` request.  The list
of written messages is returned alongside. -/
def execute_tool_send (st : ManagerState) (server_name tool_name : String)
    (arguments : Json) (request_id : String) : ManagerState × ExecPhase × List Json :=
  if (st.processes.lookup server_name).isSome then
    ({ st with pending_requests := st.pending_requests ++ [request_id] },
     .awaiting request_id,
     [toolCallRequest tool_name arguments request_id])
  else
    (st, .notRunning (.obj [("error", .str ("Server " ++ server_name ++ " not running"))]), [])

/-- Second half of `execute_tool`, at resumption of `asyncio.wait_for`: if
the future was resolved while waiting, its value is returned; otherwise the
timeout fired, the pending entry is deleted, and a timeout error object is
returned. -/
def execute_tool_finish (st : ManagerState) (request_id : String) : ManagerState × Json :=
  match st.resolvedFutures.lookup request_id with
  | some v => (st, v)
  | none =>
      ({ st with pending_requests := st.pending_requests.erase request_id },
       .obj [("error", .str "Tool execution timeout")])

/-- One observable event of the `_read_output` reader loop: a complete line
that parsed as JSON, a line that failed `json.loads`, end of stream
(`read(1)` returned the empty string, i.e. the child closed its stdout), or
an exception from the read (e.g. a broken pipe). -/
inductive ReadEvent where
  | jsonLine (j : Json)
  | invalidLine
  | eof
  | readError
deriving Repr, DecidableEq

/-- Translation of `SubprocessManager._read_output`, at line granularity: while the server
is registered, parsed lines are dispatched to `_handle_response` and invalid
lines are only logged; end of stream or a read exception breaks out of the
loop.  Crucially, the break paths change no state at all. -/
def read_output (st : ManagerState) (server_name : String) : List ReadEvent → ManagerState
  | [] => st
  | e :: rest =>
      if (st.processes.lookup server_name).isSome then
        match e with
        | .jsonLine j => read_output (handle_response st j) server_name rest
        | .invalidLine => read_output st server_name rest
        | .eof => st
        | .readError => st
      else st

/-- One step a session coroutine takes against the outside world: writing a
JSON message to the child's stdin (`_send_request` / `_send_notification`),
or suspending until the response for a given request id arrives or a timeout
(in seconds) elapses (`asyncio.wait_for` on the pending future). -/
inductive SessionAction where
  | send (msg : Json)
  | awaitResponse (request_id : String) (timeoutSecs : Nat)
deriving Repr, DecidableEq

/-- Is the action a suspension on a response? -/
def SessionAction.isAwaitResponse : SessionAction → Bool
  | .awaitResponse _ _ => true
  | .send _ => false

/-- The `initialize` request of `_initialize_connection`, verbatim. -/
def initRequest (initId : String) : Json :=
  .obj [ ("jsonrpc", .str "2.0"),
         ("method", .str "initialize"),
         ("params", .obj [
            ("protocolVersion", .str "2024-11-05"),
            ("capabilities", .obj [
               ("roots", .obj [("listChanged", .bool true)]),
               ("sampling", .obj [])]),
            ("clientInfo", .obj [
               ("name", .str "mcp-catalog"),
               ("version", .str "1.0.0")])]),
         ("id", .str initId) ]

/-- The `initialized` notification of `_initialize_connection`, verbatim. -/
def initializedNotification : Json :=
  .obj [ ("jsonrpc", .str "2.0"),
         ("method", .str "initialized"),
         ("params", .obj []) ]

/-- The action trace of `SubprocessManager._initialize_connection`: it
writes the `initialize` request (via `_send_request`, which only writes and
flushes) and then writes the `initialized` notification.  No pending future
is created for `initId` and nothing is awaited in between — compare
`execute_tool_sessionActions`, where an await does occur. -/
def initialize_connection_actions (initId : String) : List SessionAction :=
  [ .send (initRequest initId), .send initializedNotification ]

/-- The action trace of `execute_tool` on its happy path, for contrast: it
writes the `tools/call` request and then suspends on the response with the
30-second timeout. -/
def execute_tool_sessionActions (tool_name : String) (arguments : Json)
    (request_id : String) : List SessionAction :=
  [ .send (toolCallRequest tool_name arguments request_id),
    .awaitResponse request_id 30 ]

/-- The handshake `_initialize_connection` touches no manager state: both sends go through
`_send_request`, which writes to the child's stdin and never reads or
registers anything. -/
def initialize_connection_state (st : ManagerState) : ManagerState := st

/-- Outcome of the environment during one `start_server` call: the spawn and
the handshake writes both succeed; `subprocess.Popen` raises; or an
exception is raised after the process table insertion (for instance the
`initialize` write to the child's stdin fails). -/
inductive StartBehavior where
  | ok
  | spawnFails
  | initFails
deriving Repr, DecidableEq

/-- The body of `SubprocessManager.start_server` before its enclosing
`except` clause: early-return `True` if the name is already registered;
look up `execution`/`command` in the config (a missing key raises); spawn;
insert the handle into `processes`; run the handshake writes.  An `error`
value models an escaping Python exception. -/
def start_server_body (st : ManagerState) (server_name : String)
    (server_config : Json) (b : StartBehavior) : ManagerState × Except String Bool :=
  if (st.processes.lookup server_name).isSome then
    (st, .ok true)
  else
    match server_config.getField "execution" with
    | none => (st, .error "KeyError: execution")
    | some execution =>
        match execution.getField "command" with
        | none => (st, .error "KeyError: command")
        | some _ =>
            match b with
            | .spawnFails => (st, .error "Popen raised")
            | .ok =>
                ({ st with
                   processes := listSet st.processes server_name ⟨server_name⟩
                   liveChildren := st.liveChildren ++ [server_name] },
                 .ok true)
            | .initFails =>
                ({ st with
                   processes := listSet st.processes server_name ⟨server_name⟩
                   liveChildren := st.liveChildren ++ [server_name] },
                 .error "write to child stdin raised")

/-- Translation of `SubprocessManager.start_server`: the body wrapped in
`try/except Exception: return False`.  Whatever state mutations the body
performed before raising are kept — the except clause only logs. -/
def start_server (st : ManagerState) (server_name : String)
    (server_config : Json) (b : StartBehavior) : ManagerState × Bool :=
  match start_server_body st server_name server_config b with
  | (st', .ok r) => (st', r)
  | (st', .error _) => (st', false)

/-- A sequence of `start_server` calls run back to back, returning the final
state and each call's boolean result.  Under `asyncio`'s cooperative
scheduling this is the general shape of N "concurrent" calls: `start_server`
contains no genuine suspension point (the `await`s inside it await
coroutines that never yield), so concurrent calls serialize in some order. -/
def runStartCalls (st : ManagerState) (server_name : String)
    (server_config : Json) : List StartBehavior → ManagerState × List Bool
  | [] => (st, [])
  | b :: bs =>
      let p := start_server st server_name server_config b
      let q := runStartCalls p.1 server_name server_config bs
      (q.1, p.2 :: q.2)

/-- Outcome of the environment during one `stop_server` call: the child
exits within the 0.5 s grace sleep (`poll()` is not `None`); it survives the
grace period and `kill()` succeeds; `terminate()` raises; or `kill()`
raises.  In the two raising cases the child is left alive. -/
inductive StopBehavior where
  | exitsInGrace
  | killedAfterGrace
  | terminateRaises
  | killRaises
deriving Repr, DecidableEq

/-- Translation of `SubprocessManager.stop_server`: a no-op for unknown names; otherwise
`terminate`, grace sleep, optional `kill`, and only then
`del self.processes[server_name]`.  The `del` sits inside the `try`, so when
`terminate()` or `kill()` raises, the except clause logs and the entry stays
in the map and the child stays alive. -/
def stop_server (st : ManagerState) (server_name : String)
    (b : StopBehavior) : ManagerState :=
  if (st.processes.lookup server_name).isSome then
    match b with
    | .exitsInGrace | .killedAfterGrace =>
        { st with
          processes := listErase st.processes server_name
          liveChildren := st.liveChildren.erase server_name }
    | .terminateRaises | .killRaises => st
  else st

/-- Translation of `SubprocessManager.cleanup`: stop every server named in a snapshot of
the process map's keys, with the environment choosing each stop's outcome. -/
def cleanup (st : ManagerState) (bs : String → StopBehavior) : ManagerState :=
  (st.processes.map Prod.fst).foldl (fun s n => stop_server s n (bs n)) st

/-- The dictionary `DynamicToolRegistry.check_server_requirements` builds
for a server that exists in the configuration. -/
structure Requirements where
  server : String
  ready : Bool
  missing_env : List String
  present_env : List String
deriving Repr, DecidableEq

/-- The test `if os.getenv(env_var):` — an unset variable and a variable set to the
empty string are both falsy. -/
def envTruthy (env : String → Option String) (v : String) : Bool :=
  match env v with
  | some s => s != ""
  | none => false

/-- One iteration of the environment loop in `check_server_requirements`:
variables whose details mark them required (the default) are sorted into
`present_env` or `missing_env`, the latter clearing `ready`.  Accumulator is
`(ready, missing_env, present_env)`. -/
def checkEnvStep (env : String → Option String)
    (acc : Bool × List String × List String) (kv : String × Json) :
    Bool × List String × List String :=
  if ((kv.2.getField "required").getD (.bool true)).truthy then
    if envTruthy env kv.1 then (acc.1, acc.2.1, acc.2.2 ++ [kv.1])
    else (false, acc.2.1 ++ [kv.1], acc.2.2)
  else acc

/-- Translation of `DynamicToolRegistry.check_server_requirements`: `none` models the
`{"error": ...}` early return taken when the server is missing from the
configuration (or its entry is falsy). -/
def check_server_requirements (config : Json) (env : String → Option String)
    (server_name : String) : Option Requirements :=
  match (config.getFieldD "servers" (.obj [])).getField server_name with
  | none => none
  | some server_config =>
      if !server_config.truthy then none
      else
        let r := (server_config.getFieldD "environment" (.obj [])).objFields.foldl
          (checkEnvStep env) (true, [], [])
        some ⟨server_name, r.1, r.2.1, r.2.2⟩

/-- State of a `DynamicToolRegistry` as far as discovery mutates it.
`tool_map` maps the value of each discovered tool's `name` field to the
owning server's name; `discovered_tools` maps a server name to the `tools`
value of its `tools/list` response; `tool_schemas` maps a server name to a
per-tool-name map of `inputSchema` values. -/
structure RegistryState where
  tool_map : List (Json × String)
  discovered_tools : List (String × Json)
  tool_schemas : List (String × List (Json × Json))
deriving Repr, DecidableEq

/-- An entry of the `discovery_errors` list collected by
`discover_all_tools`, structured instead of formatted into a string. -/
inductive DiscoveryError where
  | missingEnv (server : String) (missing : List String)
  | startFailed (server : String)
  | discoveryFailed (server : String) (finalResponse : Option Json)
  | exceptionDuring (server : String)
deriving Repr, DecidableEq

/-- Everything the environment decides during a discovery pass: the process
environment variables, each `start_server` call's outcome, the outcome of
each `list_tools` attempt, and each cleanup stop's outcome.

`listToolsAttempt name k` is attempt `k`'s outcome: `some r` when the call
returned the response `r`, `none` when it raised.  Modelled from the spec:
`SubprocessManager.list_tools` is called by `discover_all_tools` and
`main.py` and mocked in the test suite but is absent from `src/`; per the
spec it sends `tools/list` on the server's session, awaits the response and
"returns the tool array or propagates error", so its outcome is one JSON
response (or an exception) chosen by the child process. -/
structure DiscoveryEnv where
  env : String → Option String
  startB : String → StartBehavior
  listToolsAttempt : String → Nat → Option Json
  stopB : String → StopBehavior

/-- One step of the retry loop around `list_tools`: the accumulator is the
current value of the `tools_response` variable (`none` = still unassigned);
an attempt that raises leaves it unchanged, an attempt that returns
overwrites it, and the loop breaks when the returned response has no
`error` field.  Result: (new `tools_response`, break?). -/
def retryStep (current : Option Json) (attempt : Option Json) : Option Json × Bool :=
  match attempt with
  | some r => (some r, !r.hasField "error")
  | none => (current, false)

/-- The three-attempt retry loop of `discover_all_tools` around
`manager.list_tools`, returning the final value of `tools_response`. -/
def retryListTools (attempts : Nat → Option Json) : Option Json :=
  let s0 := retryStep none (attempts 0)
  if s0.2 then s0.1
  else
    let s1 := retryStep s0.1 (attempts 1)
    if s1.2 then s1.1
    else (retryStep s1.1 (attempts 2)).1

/-- Assignment `self.tool_schemas[server_name][tool_name] = schema`, creating the inner
dict when absent, as the two-line Python idiom does. -/
def updateSchemas (schemas : List (String × List (Json × Json)))
    (server : String) (tool_name schema : Json) :
    List (String × List (Json × Json)) :=
  listSet schemas server (listSet ((schemas.lookup server).getD []) tool_name schema)

/-- The per-tool registration loop of `discover_all_tools` (its lines
building `tool_map` and `tool_schemas`): every tool whose `name` field is
truthy is recorded; the key of `tool_map` is that bare name value. -/
def registerTools : RegistryState → String → List Json → RegistryState
  | reg, _, [] => reg
  | reg, server, tool :: rest =>
      let tn := (tool.getField "name").getD .null
      if tn.truthy then
        registerTools
          { reg with
            tool_map := listSet reg.tool_map tn server
            tool_schemas := updateSchemas reg.tool_schemas server tn
              (tool.getFieldD "inputSchema" (.obj [])) }
          server rest
      else registerTools reg server rest

/-- Accumulated state of a discovery pass: the subprocess manager, the
registry, the collected `discovery_errors`, and — for the theorems — the
list of servers for which `start_server` was actually invoked. -/
structure DiscAcc where
  mgr : ManagerState
  reg : RegistryState
  errors : List DiscoveryError
  spawnAttempts : List String
deriving Repr, DecidableEq

/-- The body of `discover_all_tools`'s per-server loop: readiness check
(an unready server is skipped with a recorded reason before any process
work); `start_server` only when the server is not already in the manager's
process map; the `list_tools` retry; then recording of `discovered_tools`,
`tool_map` and `tool_schemas`.  The `exceptionDuring` arm models the outer
`except`, reached when `check_server_requirements` returned its error
dictionary and the `requirements["ready"]` access raised `KeyError`. -/
def processServer (denv : DiscoveryEnv) (config : Json) (acc : DiscAcc)
    (server_name : String) (server_config : Json) : DiscAcc :=
  match check_server_requirements config denv.env server_name with
  | none => { acc with errors := acc.errors ++ [.exceptionDuring server_name] }
  | some req =>
      if !req.ready then
        { acc with errors := acc.errors ++ [.missingEnv server_name req.missing_env] }
      else
        let needStart := !(acc.mgr.processes.lookup server_name).isSome
        let started :=
          if needStart then
            start_server acc.mgr server_name server_config (denv.startB server_name)
          else (acc.mgr, true)
        let spawns :=
          if needStart then acc.spawnAttempts ++ [server_name] else acc.spawnAttempts
        if !started.2 then
          { acc with
            mgr := started.1
            spawnAttempts := spawns
            errors := acc.errors ++ [.startFailed server_name] }
        else
          match retryListTools (denv.listToolsAttempt server_name) with
          | none =>
              { acc with
                mgr := started.1
                spawnAttempts := spawns
                errors := acc.errors ++ [.discoveryFailed server_name none] }
          | some r =>
              if !r.truthy || r.hasField "error" then
                { acc with
                  mgr := started.1
                  spawnAttempts := spawns
                  errors := acc.errors ++ [.discoveryFailed server_name (some r)] }
              else
                let tools := r.getFieldD "tools" (.arr [])
                { acc with
                  mgr := started.1
                  spawnAttempts := spawns
                  reg := registerTools
                    { acc.reg with
                      discovered_tools := listSet acc.reg.discovered_tools server_name tools }
                    server_name tools.asArr }

/-- Translation of `DynamicToolRegistry.discover_all_tools`: fold the per-server body over
the configured servers, then `manager.cleanup()` stops every server that is
still registered. -/
def discover_all_tools (denv : DiscoveryEnv) (config : Json)
    (mgr : ManagerState) (reg : RegistryState) : DiscAcc :=
  let servers := (config.getFieldD "servers" (.obj [])).objFields
  let acc := servers.foldl (fun a kv => processServer denv config a kv.1 kv.2)
    { mgr := mgr, reg := reg, errors := [], spawnAttempts := [] }
  { acc with mgr := cleanup acc.mgr denv.stopB }

/-- Translation of `refresh_tools` of `main.py`: clear `tool_map` and `discovered_tools`
(and nothing else — in particular not `tool_schemas`), then re-run
`discover_all_tools`. -/
def refresh_tools (denv : DiscoveryEnv) (config : Json)
    (mgr : ManagerState) (reg : RegistryState) : DiscAcc :=
  discover_all_tools denv config mgr
    { reg with tool_map := [], discovered_tools := [] }

/-- Translation of `DynamicToolRegistry.register_all_with_fastmcp`, reduced to what it
contributes to the verified statements: the FastMCP display names it
registers, in order, plus the registered and skipped counters.  The display
name is `f"{server_name}_{tool_name}"`, built only here.  `none` models the
`KeyError` that escapes the method when `check_server_requirements` returned
its error dictionary (that check sits outside the `try`).  A `tool_map` key
that is not a string — impossible for well-formed servers — is modelled as
the except-and-skip path. -/
def register_all_with_fastmcp (config : Json) (env : String → Option String)
    (reg : RegistryState) : Option (List String × Nat × Nat) :=
  reg.tool_map.foldl (fun acc kv =>
    match acc with
    | none => none
    | some (names, registered, skipped) =>
        match check_server_requirements config env kv.2 with
        | none => none
        | some req =>
            if !req.ready then some (names, registered, skipped + 1)
            else
              match kv.1 with
              | .str tn => some (names ++ [kv.2 ++ "_" ++ tn], registered + 1, skipped)
              | _ => some (names, registered, skipped + 1))
    (some ([], 0, 0))

/-! ## Helper lemmas -/

lemma lookup_append_of_none {α β : Type} [BEq α] (l₁ l₂ : List (α × β)) (k : α)
    (h : l₁.lookup k = none) : (l₁ ++ l₂).lookup k = l₂.lookup k := by
  induction l₁ with
  | nil => rfl
  | cons p rest ih =>
      obtain ⟨a, b⟩ := p
      rw [List.cons_append]
      cases hak : k == a with
      | true => rw [List.lookup_cons, hak] at h; exact absurd h (by simp)
      | false =>
          rw [List.lookup_cons, hak] at h
          rw [List.lookup_cons, hak]
          exact ih h

lemma find?_append_of_none {α : Type} (l₁ l₂ : List α) (p : α → Bool)
    (h : l₁.find? p = none) : (l₁ ++ l₂).find? p = l₂.find? p := by
  induction l₁ with
  | nil => rfl
  | cons a rest ih =>
      rw [List.find?_cons] at h
      cases hpa : p a with
      | true => simp [hpa] at h
      | false =>
          simp only [hpa] at h
          rw [List.cons_append, List.find?_cons, hpa]
          exact ih h

/-! ## C1 — transport failure and pending calls -/

/-- C1: the claim states that when the owning child process exits or its
pipe breaks, every outstanding PendingRequest on that session is immediately
completed with a transport-failure error and the session is forced closed.
The code refutes this: in a state with server `srv` running and two pending
requests, the reader observing end-of-stream leaves the state exactly as it
was — both requests still pending, nothing resolved, the server still
registered. -/
theorem C1_counterexample :
    read_output ⟨[("srv", ⟨"srv"⟩)], ["r1", "r2"], [], ["srv"]⟩ "srv" [.eof]
      = ⟨[("srv", ⟨"srv"⟩)], ["r1", "r2"], [], ["srv"]⟩
    ∧ (read_output ⟨[("srv", ⟨"srv"⟩)], ["r1", "r2"], [], ["srv"]⟩ "srv"
        [.eof]).pending_requests ≠ []
    ∧ (read_output ⟨[("srv", ⟨"srv"⟩)], ["r1", "r2"], [], ["srv"]⟩ "srv"
        [.eof]).resolvedFutures = []
    ∧ ((read_output ⟨[("srv", ⟨"srv"⟩)], ["r1", "r2"], [], ["srv"]⟩ "srv"
        [.eof]).processes.lookup "srv").isSome = true := by
  exact ⟨rfl, by decide, rfl, rfl⟩

/-- C1 (amended): when the child's stdout hits end-of-stream (process exit)
or the read raises (broken pipe), `_read_output` merely breaks out of its
loop, leaving the manager state unchanged — no pending request is completed
or removed and the server stays registered; a pending caller is only
released later when its own `asyncio.wait_for` timeout fires, yielding the
generic timeout error. -/
theorem C1_amended_reader_break_leaves_pending (st : ManagerState)
    (srv rid : String) (evs : List ReadEvent)
    (_hpend : rid ∈ st.pending_requests)
    (hres : st.resolvedFutures.lookup rid = none) :
    read_output st srv (.eof :: evs) = st
    ∧ read_output st srv (.readError :: evs) = st
    ∧ (execute_tool_finish st rid).2
        = .obj [("error", .str "Tool execution timeout")] := by
  refine ⟨?_, ?_, ?_⟩
  · show (if (st.processes.lookup srv).isSome then st else st) = st
    exact ite_self st
  · show (if (st.processes.lookup srv).isSome then st else st) = st
    exact ite_self st
  · simp [execute_tool_finish, hres]

/-- Witness for C1 (amended) at a concrete state with one pending call. -/
theorem C1_amended_witness :
    read_output ⟨[("srv", ⟨"srv"⟩)], ["r1"], [], ["srv"]⟩ "srv" [.eof]
      = ⟨[("srv", ⟨"srv"⟩)], ["r1"], [], ["srv"]⟩
    ∧ read_output ⟨[("srv", ⟨"srv"⟩)], ["r1"], [], ["srv"]⟩ "srv" [.readError]
      = ⟨[("srv", ⟨"srv"⟩)], ["r1"], [], ["srv"]⟩
    ∧ (execute_tool_finish ⟨[("srv", ⟨"srv"⟩)], ["r1"], [], ["srv"]⟩ "r1").2
      = .obj [("error", .str "Tool execution timeout")] :=
  C1_amended_reader_break_leaves_pending
    ⟨[("srv", ⟨"srv"⟩)], ["r1"], [], ["srv"]⟩ "srv" "r1" []
    (by decide) rfl

/-! ## C2 — caller-side timeout removes the pending entry -/

/-- C2: a request id that is registered but unresolved when the
`asyncio.wait_for` timeout fires yields the timeout error object, its
PendingRequest is deleted from the pending map (other entries untouched),
and any later response carrying that id is a dropped no-op on the state. -/
theorem C2_timeout_cleanup_and_late_response_noop (st : ManagerState)
    (rid : String)
    (_hpend : rid ∈ st.pending_requests)
    (hnd : st.pending_requests.Nodup)
    (hres : st.resolvedFutures.lookup rid = none) :
    (execute_tool_finish st rid).2
      = .obj [("error", .str "Tool execution timeout")]
    ∧ (execute_tool_finish st rid).1.pending_requests
      = st.pending_requests.erase rid
    ∧ rid ∉ (execute_tool_finish st rid).1.pending_requests
    ∧ ∀ resp : Json, resp.getField "id" = some (.str rid) →
        handle_response (execute_tool_finish st rid).1 resp
          = (execute_tool_finish st rid).1 := by
  have hfin : execute_tool_finish st rid
      = ({ st with pending_requests := st.pending_requests.erase rid },
         .obj [("error", .str "Tool execution timeout")]) := by
    simp [execute_tool_finish, hres]
  have hnotmem : rid ∉ st.pending_requests.erase rid := by
    intro hmem
    exact ((hnd.mem_erase_iff).mp hmem).1 rfl
  refine ⟨by rw [hfin], by rw [hfin], by rw [hfin]; exact hnotmem, ?_⟩
  intro resp hid
  have hfind : ((execute_tool_finish st rid).1.pending_requests.find?
      (fun k => idMatchesKey (.str rid) k)) = none := by
    rw [hfin]
    apply List.find?_eq_none.mpr
    intro k hk hmatch
    have : rid = k := by
      simpa [idMatchesKey] using hmatch
    exact hnotmem (this ▸ hk)
  simp only [handle_response, hid, hfind]

/-- Witness for C2 at a concrete two-entry pending map. -/
theorem C2_witness :
    (execute_tool_finish ⟨[], ["a", "b"], [], []⟩ "a").2
      = .obj [("error", .str "Tool execution timeout")]
    ∧ (execute_tool_finish ⟨[], ["a", "b"], [], []⟩ "a").1.pending_requests
      = ["b"]
    ∧ handle_response (execute_tool_finish ⟨[], ["a", "b"], [], []⟩ "a").1
        (.obj [("id", .str "a"), ("result", .num 7)])
      = (execute_tool_finish ⟨[], ["a", "b"], [], []⟩ "a").1 := by
  have h := C2_timeout_cleanup_and_late_response_noop ⟨[], ["a", "b"], [], []⟩ "a"
    (by decide) (by decide) rfl
  exact ⟨h.1, by rw [h.2.1]; rfl,
    h.2.2.2 (.obj [("id", .str "a"), ("result", .num 7)]) rfl⟩

/-! ## C5 — the handshake never awaits the initialize response -/

/-- C5: the claim states that the `initialize` response is awaited before
the `initialized` notification is sent.  The code refutes this: the action
trace of `_initialize_connection` is exactly two consecutive writes with no
suspension on any response anywhere — in particular none between the two
sends. -/
theorem C5_counterexample :
    initialize_connection_actions "init-1"
      = [.send (initRequest "init-1"), .send initializedNotification]
    ∧ (initialize_connection_actions "init-1").all
        (fun a => !a.isAwaitResponse) = true := ⟨rfl, rfl⟩

/-- C5 (amended): for every handshake, `_initialize_connection` writes the
`initialize` request and then immediately writes the `initialized`
notification; it never awaits the initialize response (no pending entry is
even registered for its id) and it leaves the manager state untouched.
Contrast `execute_tool_sessionActions`, which does suspend on its
response. -/
theorem C5_amended_handshake_never_awaits (initId : String) (st : ManagerState) :
    initialize_connection_actions initId
      = [.send (initRequest initId), .send initializedNotification]
    ∧ (∀ a ∈ initialize_connection_actions initId, a.isAwaitResponse = false)
    ∧ initialize_connection_state st = st
    ∧ (execute_tool_sessionActions "t" (.obj []) "rid").any
        (fun a => a.isAwaitResponse) = true := by
  refine ⟨rfl, ?_, rfl, rfl⟩
  intro a ha
  simp only [initialize_connection_actions, List.mem_cons, List.mem_singleton,
    List.not_mem_nil, or_false] at ha
  rcases ha with h | h <;> subst h <;> rfl

/-! ## C8 — round-trip of a tool call -/

/-- C8: if a pending `tools/call` request with id `rid` later receives the
response `{"id": rid, "result": r}`, the awaiting `execute_tool` returns
exactly `r`. -/
theorem C8_round_trip (st : ManagerState) (srv tool : String) (args r : Json)
    (rid : String)
    (hrun : ((st.processes.lookup srv).isSome : Bool) = true)
    (hfresh : rid ∉ st.pending_requests)
    (hres : st.resolvedFutures.lookup rid = none) :
    (execute_tool_send st srv tool args rid).2.1 = .awaiting rid
    ∧ (execute_tool_send st srv tool args rid).2.2
      = [toolCallRequest tool args rid]
    ∧ (execute_tool_finish
        (handle_response (execute_tool_send st srv tool args rid).1
          (.obj [("id", .str rid), ("result", r)])) rid).2 = r := by
  have hsend : execute_tool_send st srv tool args rid
      = ({ st with pending_requests := st.pending_requests ++ [rid] },
         .awaiting rid, [toolCallRequest tool args rid]) := by
    simp [execute_tool_send, hrun]
  refine ⟨by rw [hsend], by rw [hsend], ?_⟩
  rw [hsend]
  have hfind : ((st.pending_requests ++ [rid]).find?
      (fun k => idMatchesKey (.str rid) k)) = some rid := by
    rw [find?_append_of_none]
    · simp [List.find?, idMatchesKey]
    · apply List.find?_eq_none.mpr
      intro k hk hmatch
      have : rid = k := by simpa [idMatchesKey] using hmatch
      exact hfresh (this ▸ hk)
  have hid : (Json.obj [("id", .str rid), ("result", r)]).getField "id"
      = some (.str rid) := rfl
  have hset : setResultValue (.obj [("id", .str rid), ("result", r)]) = r := rfl
  simp only [handle_response, hid, hfind, hset]
  simp only [execute_tool_finish]
  rw [lookup_append_of_none _ _ _ hres]
  simp [List.lookup]

/-- Witness for C8 at the claim's own scenario: arguments `{"x": 1}`
against a stub child echoing `{"result": {"x": 1}}` produce `{"x": 1}`. -/
theorem C8_witness :
    (execute_tool_finish
      (handle_response
        (execute_tool_send ⟨[("srv", ⟨"srv"⟩)], [], [], ["srv"]⟩ "srv" "echo"
          (.obj [("x", .num 1)]) "rid-1").1
        (.obj [("id", .str "rid-1"), ("result", .obj [("x", .num 1)])]))
      "rid-1").2 = .obj [("x", .num 1)] :=
  (C8_round_trip ⟨[("srv", ⟨"srv"⟩)], [], [], ["srv"]⟩ "srv" "echo"
    (.obj [("x", .num 1)]) (.obj [("x", .num 1)]) "rid-1"
    rfl (by decide) rfl).2.2

/-! ## C3 / C10 — start_server idempotence, single spawn, failure paths -/

lemma lookup_listSet_self {α β : Type} [DecidableEq α] (l : List (α × β))
    (k : α) (v : β) : (listSet l k v).lookup k = some v := by
  induction l with
  | nil => simp [listSet, List.lookup_cons]
  | cons p rest ih =>
      obtain ⟨a, b⟩ := p
      by_cases hak : a = k
      · subst hak
        simp [listSet, List.lookup_cons]
      · simp only [listSet, if_neg hak]
        rw [List.lookup_cons]
        have : (k == a) = false := by
          simp [beq_eq_false_iff_ne]
          exact fun h => hak h.symm
        rw [this]
        exact ih

lemma start_server_already_running (st : ManagerState) (name : String)
    (cfg : Json) (b : StartBehavior)
    (h : (st.processes.lookup name).isSome = true) :
    start_server st name cfg b = (st, true) := by
  simp [start_server, start_server_body, h]

lemma runStartCalls_already_running (st : ManagerState) (name : String)
    (cfg : Json) (bs : List StartBehavior)
    (h : (st.processes.lookup name).isSome = true) :
    runStartCalls st name cfg bs = (st, bs.map fun _ => true) := by
  induction bs with
  | nil => rfl
  | cons b rest ih =>
      simp [runStartCalls, start_server_already_running st name cfg b h, ih]

lemma config_execution_command {cfg : Json}
    (hcfg : ((cfg.getField "execution").bind
        (fun e => e.getField "command")).isSome = true) :
    ∃ e c, cfg.getField "execution" = some e ∧ e.getField "command" = some c := by
  cases he : cfg.getField "execution" with
  | none => rw [he] at hcfg; simp [Option.bind] at hcfg
  | some e =>
      rw [he] at hcfg
      cases hc : e.getField "command" with
      | none => rw [Option.some_bind, hc] at hcfg; simp at hcfg
      | some c => exact ⟨e, c, rfl, hc⟩

lemma start_server_ok_fresh (st : ManagerState) (name : String) (cfg : Json)
    (hfresh : st.processes.lookup name = none)
    (hcfg : ((cfg.getField "execution").bind
        (fun e => e.getField "command")).isSome = true) :
    start_server st name cfg .ok =
      ({ st with
         processes := listSet st.processes name ⟨name⟩
         liveChildren := st.liveChildren ++ [name] }, true) := by
  obtain ⟨e, c, he, hc⟩ := config_execution_command hcfg
  simp [start_server, start_server_body, hfresh, he, hc]

lemma start_server_initFails_fresh (st : ManagerState) (name : String) (cfg : Json)
    (hfresh : st.processes.lookup name = none)
    (hcfg : ((cfg.getField "execution").bind
        (fun e => e.getField "command")).isSome = true) :
    start_server st name cfg .initFails =
      ({ st with
         processes := listSet st.processes name ⟨name⟩
         liveChildren := st.liveChildren ++ [name] }, false) := by
  obtain ⟨e, c, he, hc⟩ := config_execution_command hcfg
  simp [start_server, start_server_body, hfresh, he, hc]

/-- C3: `start_server` preserves one-process-per-name.  First conjunct: for
a name already in the process map it returns `True` without touching any
state (hence without spawning).  Remaining conjuncts: a serialization of
`1 + n` calls for the same unstarted name — the general shape of concurrent
calls, since `start_server` has no genuine suspension point under
`asyncio`'s cooperative scheduling — in which the first call's spawn
succeeds, makes every caller observe `True` while exactly one child process
is spawned. -/
theorem C3_single_spawn_all_succeed (st : ManagerState) (name : String)
    (cfg : Json) (rest : List StartBehavior)
    (hfresh : st.processes.lookup name = none)
    (hcfg : ((cfg.getField "execution").bind
        (fun e => e.getField "command")).isSome = true) :
    (∀ (st' : ManagerState) (b : StartBehavior),
        ((st'.processes.lookup name).isSome : Bool) = true →
          start_server st' name cfg b = (st', true))
    ∧ (runStartCalls st name cfg (.ok :: rest)).2
        = List.map (fun _ => true) (.ok :: rest)
    ∧ (runStartCalls st name cfg (.ok :: rest)).1.liveChildren
        = st.liveChildren ++ [name] := by
  have hfirst := start_server_ok_fresh st name cfg hfresh hcfg
  set st1 : ManagerState :=
    { st with
      processes := listSet st.processes name ⟨name⟩
      liveChildren := st.liveChildren ++ [name] } with hst1
  have hreg : (st1.processes.lookup name).isSome = true := by
    rw [hst1]
    simp [lookup_listSet_self]
  have hrest := runStartCalls_already_running st1 name cfg rest hreg
  refine ⟨fun st' b h => start_server_already_running st' name cfg b h, ?_, ?_⟩
  · simp [runStartCalls, hfirst, hrest]
  · simp [runStartCalls, hfirst, hrest]

/-- Witness for C3: three simultaneous callers on a fresh manager. -/
theorem C3_witness :
    (runStartCalls ⟨[], [], [], []⟩ "s"
        (.obj [("execution", .obj [("command", .str "npx")])])
        [.ok, .ok, .ok]).2 = [true, true, true]
    ∧ (runStartCalls ⟨[], [], [], []⟩ "s"
        (.obj [("execution", .obj [("command", .str "npx")])])
        [.ok, .ok, .ok]).1.liveChildren = ["s"] := by
  have h := C3_single_spawn_all_succeed ⟨[], [], [], []⟩ "s"
    (.obj [("execution", .obj [("command", .str "npx")])]) [.ok, .ok] rfl rfl
  exact ⟨h.2.1, h.2.2⟩

/-- C10 (implicit): `start_server` never propagates an exception — an
escaping error from its body always becomes a `False` return with whatever
state mutations the body already made kept.  In particular, when the
failure strikes after the process-table insertion (the `initialize` write
raising), the call returns `False` yet the name stays registered, so an
immediately following `start_server` for the same name returns `True`
without spawning anything new. -/
theorem C10_failure_after_insert_keeps_registration (st : ManagerState)
    (name : String) (cfg : Json)
    (hfresh : st.processes.lookup name = none)
    (hcfg : ((cfg.getField "execution").bind
        (fun e => e.getField "command")).isSome = true) :
    (∀ (s : ManagerState) (n : String) (c : Json) (b : StartBehavior)
        (s' : ManagerState) (e : String),
        start_server_body s n c b = (s', .error e) →
          start_server s n c b = (s', false))
    ∧ (start_server st name cfg .initFails).2 = false
    ∧ (((start_server st name cfg .initFails).1.processes.lookup name).isSome
        : Bool) = true
    ∧ ∀ b2 : StartBehavior,
        start_server (start_server st name cfg .initFails).1 name cfg b2
          = ((start_server st name cfg .initFails).1, true) := by
  have hfail := start_server_initFails_fresh st name cfg hfresh hcfg
  have hreg : (((start_server st name cfg .initFails).1.processes.lookup name).isSome
      : Bool) = true := by
    rw [hfail]
    simp [lookup_listSet_self]
  refine ⟨?_, by rw [hfail], hreg, ?_⟩
  · intro s n c b s' e h
    simp [start_server, h]
  · intro b2
    exact start_server_already_running _ name cfg b2 hreg

/-- Witness for C10 on a fresh manager. -/
theorem C10_witness :
    (start_server ⟨[], [], [], []⟩ "s"
        (.obj [("execution", .obj [("command", .str "npx")])]) .initFails).2 = false
    ∧ start_server
        (start_server ⟨[], [], [], []⟩ "s"
          (.obj [("execution", .obj [("command", .str "npx")])]) .initFails).1
        "s" (.obj [("execution", .obj [("command", .str "npx")])]) .spawnFails
      = ((start_server ⟨[], [], [], []⟩ "s"
          (.obj [("execution", .obj [("command", .str "npx")])]) .initFails).1,
         true) := by
  have h := C10_failure_after_insert_keeps_registration ⟨[], [], [], []⟩ "s"
    (.obj [("execution", .obj [("command", .str "npx")])]) rfl rfl
  exact ⟨h.2.1, h.2.2.2 .spawnFails⟩

/-! ## C4 — stop_all under stop failures -/

/-- C4: the claim states that after `cleanup` the process map has zero
entries and zero child processes remain live regardless of individual stop
errors.  The code refutes this: with one running server whose `terminate()`
raises, the `del self.processes[name]` is skipped, so the entry and the
live child both survive `cleanup`. -/
theorem C4_counterexample :
    (cleanup ⟨[("a", ⟨"a"⟩)], [], [], ["a"]⟩
        (fun _ => .terminateRaises)).processes = [("a", ⟨"a"⟩)]
    ∧ (cleanup ⟨[("a", ⟨"a"⟩)], [], [], ["a"]⟩
        (fun _ => .terminateRaises)).processes ≠ []
    ∧ (cleanup ⟨[("a", ⟨"a"⟩)], [], [], ["a"]⟩
        (fun _ => .terminateRaises)).liveChildren = ["a"] :=
  ⟨rfl, by decide, rfl⟩

lemma cleanup_go (bs : String → StopBehavior)
    (hnr : ∀ n, bs n = .exitsInGrace ∨ bs n = .killedAfterGrace) :
    ∀ (procs : List (String × MCPProcess)) (pend : List String)
      (res : List (String × Json)),
      (procs.map Prod.fst).foldl (fun s n => stop_server s n (bs n))
          ⟨procs, pend, res, procs.map Prod.fst⟩ = ⟨[], pend, res, []⟩ := by
  intro procs
  induction procs with
  | nil => intro pend res; rfl
  | cons p rest ih =>
      intro pend res
      obtain ⟨k, v⟩ := p
      have hstop : stop_server
          ⟨(k, v) :: rest, pend, res, ((k, v) :: rest).map Prod.fst⟩ k (bs k)
          = ⟨rest, pend, res, rest.map Prod.fst⟩ := by
        rcases hnr k with h | h <;>
          simp [stop_server, h, List.lookup_cons, listErase, List.erase_cons_head]
      simp only [List.map_cons, List.foldl_cons]
      rw [show ((k, v) :: rest).map Prod.fst = k :: rest.map Prod.fst from rfl] at hstop
      rw [hstop]
      exact ih pend res

/-- C4 (amended): `cleanup` removes exactly the servers whose stop sequence
did not raise.  When no `terminate()`/`kill()` raises, the process map and
the set of live children are both left empty; but a stop whose termination
signalling raises is a complete no-op on the state — the entry stays in the
map and the child stays alive (as `C4_counterexample` exhibits). -/
theorem C4_amended_cleanup_empties_unless_stop_raises (st : ManagerState)
    (bs : String → StopBehavior)
    (hnr : ∀ n, bs n = .exitsInGrace ∨ bs n = .killedAfterGrace)
    (hlive : st.liveChildren = st.processes.map Prod.fst) :
    (cleanup st bs).processes = []
    ∧ (cleanup st bs).liveChildren = []
    ∧ ∀ (s : ManagerState) (n : String),
        stop_server s n .terminateRaises = s ∧ stop_server s n .killRaises = s := by
  obtain ⟨procs, pend, res, live⟩ := st
  simp only at hlive
  subst hlive
  have hc : cleanup ⟨procs, pend, res, procs.map Prod.fst⟩ bs
      = ⟨[], pend, res, []⟩ := cleanup_go bs hnr procs pend res
  refine ⟨by rw [hc], by rw [hc], ?_⟩
  intro s n
  constructor <;> simp [stop_server]

/-- Witness for C4 (amended): two running servers, both stops succeed. -/
theorem C4_amended_witness :
    (cleanup ⟨[("a", ⟨"a"⟩), ("b", ⟨"b"⟩)], [], [], ["a", "b"]⟩
        (fun _ => .exitsInGrace)).processes = []
    ∧ (cleanup ⟨[("a", ⟨"a"⟩), ("b", ⟨"b"⟩)], [], [], ["a", "b"]⟩
        (fun _ => .exitsInGrace)).liveChildren = [] := by
  have h := C4_amended_cleanup_empties_unless_stop_raises
    ⟨[("a", ⟨"a"⟩), ("b", ⟨"b"⟩)], [], [], ["a", "b"]⟩
    (fun _ => .exitsInGrace) (fun _ => Or.inl rfl) rfl
  exact ⟨h.1, h.2.1⟩

/-! ## C6 — readiness check and skip without spawn -/

lemma checkEnvStep_false (env : String → Option String)
    (acc : Bool × List String × List String) (kv : String × Json)
    (h : acc.1 = false) : (checkEnvStep env acc kv).1 = false := by
  unfold checkEnvStep
  split
  · split
    · exact h
    · rfl
  · exact h

lemma envFold_false (env : String → Option String)
    (fields : List (String × Json)) :
    ∀ acc : Bool × List String × List String, acc.1 = false →
      (fields.foldl (checkEnvStep env) acc).1 = false := by
  induction fields with
  | nil => intro acc h; exact h
  | cons kv rest ih =>
      intro acc h
      rw [List.foldl_cons]
      exact ih _ (checkEnvStep_false env acc kv h)

lemma checkEnvStep_missing_mono (env : String → Option String)
    (acc : Bool × List String × List String) (kv : String × Json) (v : String)
    (h : v ∈ acc.2.1) : v ∈ (checkEnvStep env acc kv).2.1 := by
  unfold checkEnvStep
  split
  · split
    · exact h
    · exact List.mem_append_left _ h
  · exact h

lemma envFold_missing_mono (env : String → Option String)
    (fields : List (String × Json)) :
    ∀ (acc : Bool × List String × List String) (v : String), v ∈ acc.2.1 →
      v ∈ (fields.foldl (checkEnvStep env) acc).2.1 := by
  induction fields with
  | nil => intro acc v h; exact h
  | cons kv rest ih =>
      intro acc v h
      rw [List.foldl_cons]
      exact ih _ v (checkEnvStep_missing_mono env acc kv v h)

lemma envFold_hits (env : String → Option String) (v : String) (d : Json)
    (hreq : ((d.getField "required").getD (.bool true)).truthy = true)
    (hunset : envTruthy env v = false) :
    ∀ (fields : List (String × Json)) (acc : Bool × List String × List String),
      (v, d) ∈ fields →
      (fields.foldl (checkEnvStep env) acc).1 = false
      ∧ v ∈ (fields.foldl (checkEnvStep env) acc).2.1 := by
  intro fields
  induction fields with
  | nil => intro acc h; cases h
  | cons kv rest ih =>
      intro acc hm
      rw [List.foldl_cons]
      rcases List.mem_cons.mp hm with heq | htail
      · have hstep : (checkEnvStep env acc kv).1 = false
            ∧ v ∈ (checkEnvStep env acc kv).2.1 := by
          rw [← heq]
          simp [checkEnvStep, hreq, hunset]
        exact ⟨envFold_false env rest _ hstep.1,
               envFold_missing_mono env rest _ v hstep.2⟩
      · exact ih _ htail

lemma processServer_skip (denv : DiscoveryEnv) (config : Json) (acc : DiscAcc)
    (k : String) (cfg : Json) (req : Requirements)
    (hchk : check_server_requirements config denv.env k = some req)
    (hready : req.ready = false) :
    processServer denv config acc k cfg
      = { acc with errors := acc.errors ++ [.missingEnv k req.missing_env] } := by
  unfold processServer
  rw [hchk]
  simp [hready]

lemma processServer_errors_mono (denv : DiscoveryEnv) (config : Json)
    (acc : DiscAcc) (k : String) (cfg : Json) (e : DiscoveryError)
    (h : e ∈ acc.errors) : e ∈ (processServer denv config acc k cfg).errors := by
  unfold processServer
  cases hn : (!(acc.mgr.processes.lookup k).isSome) <;> simp only [hn] <;>
    repeat' split
  all_goals simp_all [List.mem_append]

lemma processServer_spawns_cases (denv : DiscoveryEnv) (config : Json)
    (acc : DiscAcc) (k : String) (cfg : Json) :
    (processServer denv config acc k cfg).spawnAttempts = acc.spawnAttempts
    ∨ (processServer denv config acc k cfg).spawnAttempts
        = acc.spawnAttempts ++ [k] := by
  unfold processServer
  cases hn : (!(acc.mgr.processes.lookup k).isSome) <;> simp only [hn] <;>
    repeat' split
  all_goals simp_all

lemma discFold_errors_mono (denv : DiscoveryEnv) (config : Json)
    (servers : List (String × Json)) :
    ∀ (acc : DiscAcc) (e : DiscoveryError), e ∈ acc.errors →
      e ∈ (servers.foldl
        (fun a kv => processServer denv config a kv.1 kv.2) acc).errors := by
  induction servers with
  | nil => intro acc e h; exact h
  | cons kv rest ih =>
      intro acc e h
      rw [List.foldl_cons]
      exact ih _ e (processServer_errors_mono denv config acc kv.1 kv.2 e h)

lemma discFold_not_spawned (denv : DiscoveryEnv) (config : Json)
    (servers : List (String × Json)) (s : String) (req : Requirements)
    (hchk : check_server_requirements config denv.env s = some req)
    (hready : req.ready = false) :
    ∀ acc : DiscAcc, s ∉ acc.spawnAttempts →
      s ∉ (servers.foldl
        (fun a kv => processServer denv config a kv.1 kv.2) acc).spawnAttempts := by
  induction servers with
  | nil => intro acc h; exact h
  | cons kv rest ih =>
      intro acc h
      rw [List.foldl_cons]
      by_cases hks : kv.1 = s
      · subst hks
        refine ih _ ?_
        rw [processServer_skip denv config acc kv.1 kv.2 req hchk hready]
        exact h
      · refine ih _ ?_
        rcases processServer_spawns_cases denv config acc kv.1 kv.2 with hc | hc <;>
          rw [hc]
        · exact h
        · intro hmem
          rcases List.mem_append.mp hmem with hm | hm
          · exact h hm
          · exact hks (List.mem_singleton.mp hm).symm

lemma discFold_error_recorded (denv : DiscoveryEnv) (config : Json)
    (servers : List (String × Json)) (s : String) (req : Requirements)
    (hchk : check_server_requirements config denv.env s = some req)
    (hready : req.ready = false) :
    ∀ acc : DiscAcc, s ∈ servers.map Prod.fst →
      DiscoveryError.missingEnv s req.missing_env ∈ (servers.foldl
        (fun a kv => processServer denv config a kv.1 kv.2) acc).errors := by
  induction servers with
  | nil => intro acc h; cases h
  | cons kv rest ih =>
      intro acc hm
      rw [List.foldl_cons]
      rw [List.map_cons] at hm
      rcases List.mem_cons.mp hm with heq | htail
      · have hskip := processServer_skip denv config acc kv.1 kv.2 req
          (heq ▸ hchk) hready
        rw [heq]
        rw [hskip]
        exact discFold_errors_mono denv config rest _ _
          (List.mem_append_right _ (by simp))
      · exact ih _ htail

/-- C6: a server whose descriptor declares a required environment variable
that is unset is reported `ready = false` with that variable in
`missing_env` by `check_server_requirements`, and `discover_all_tools`
skips it — recording a missing-environment reason — without ever invoking
`start_server` for it. -/
theorem C6_missing_env_reported_and_skipped (denv : DiscoveryEnv)
    (config : Json) (mgr : ManagerState) (reg : RegistryState)
    (s v : String) (d scfg : Json) (req : Requirements)
    (hs : (config.getFieldD "servers" (.obj [])).getField s = some scfg)
    (htr : scfg.truthy = true)
    (hdecl : (v, d) ∈ (scfg.getFieldD "environment" (.obj [])).objFields)
    (hreq : ((d.getField "required").getD (.bool true)).truthy = true)
    (hunset : envTruthy denv.env v = false)
    (hcheck : check_server_requirements config denv.env s = some req)
    (hmem : s ∈ (config.getFieldD "servers" (.obj [])).objFields.map Prod.fst) :
    req.ready = false
    ∧ v ∈ req.missing_env
    ∧ DiscoveryError.missingEnv s req.missing_env
        ∈ (discover_all_tools denv config mgr reg).errors
    ∧ s ∉ (discover_all_tools denv config mgr reg).spawnAttempts := by
  have hfold := envFold_hits denv.env v d hreq hunset
    ((scfg.getFieldD "environment" (.obj [])).objFields) (true, [], []) hdecl
  have hcomp : check_server_requirements config denv.env s
      = some ⟨s,
          (((scfg.getFieldD "environment" (.obj [])).objFields).foldl
            (checkEnvStep denv.env) (true, [], [])).1,
          (((scfg.getFieldD "environment" (.obj [])).objFields).foldl
            (checkEnvStep denv.env) (true, [], [])).2.1,
          (((scfg.getFieldD "environment" (.obj [])).objFields).foldl
            (checkEnvStep denv.env) (true, [], [])).2.2⟩ := by
    unfold check_server_requirements
    rw [hs]
    simp [htr]
  rw [hcheck] at hcomp
  have hreqeq := (Option.some.injEq _ _).mp hcomp
  have hready : req.ready = false := by rw [hreqeq]; exact hfold.1
  have hmiss : v ∈ req.missing_env := by rw [hreqeq]; exact hfold.2
  refine ⟨hready, hmiss, ?_, ?_⟩
  · exact discFold_error_recorded denv config _ s req hcheck hready _ hmem
  · exact discFold_not_spawned denv config _ s req hcheck hready _ (by simp)

/-- Witness for C6 at the claim's own scenario: a server declaring required
`API_KEY` with `API_KEY` unset. -/
theorem C6_witness :
    check_server_requirements
        (.obj [("servers", .obj [("svc", .obj [
          ("execution", .obj [("command", .str "npx")]),
          ("environment", .obj [("API_KEY", .obj [])])])])])
        (fun _ => none) "svc"
      = some ⟨"svc", false, ["API_KEY"], []⟩
    ∧ DiscoveryError.missingEnv "svc" ["API_KEY"]
        ∈ (discover_all_tools
            ⟨fun _ => none, fun _ => .ok, fun _ _ => none, fun _ => .exitsInGrace⟩
            (.obj [("servers", .obj [("svc", .obj [
              ("execution", .obj [("command", .str "npx")]),
              ("environment", .obj [("API_KEY", .obj [])])])])])
            ⟨[], [], [], []⟩ ⟨[], [], []⟩).errors
    ∧ "svc" ∉ (discover_all_tools
            ⟨fun _ => none, fun _ => .ok, fun _ _ => none, fun _ => .exitsInGrace⟩
            (.obj [("servers", .obj [("svc", .obj [
              ("execution", .obj [("command", .str "npx")]),
              ("environment", .obj [("API_KEY", .obj [])])])])])
            ⟨[], [], [], []⟩ ⟨[], [], []⟩).spawnAttempts := by
  have h := C6_missing_env_reported_and_skipped
    ⟨fun _ => none, fun _ => .ok, fun _ _ => none, fun _ => .exitsInGrace⟩
    (.obj [("servers", .obj [("svc", .obj [
      ("execution", .obj [("command", .str "npx")]),
      ("environment", .obj [("API_KEY", .obj [])])])])])
    ⟨[], [], [], []⟩ ⟨[], [], []⟩
    "svc" "API_KEY" (.obj []) (.obj [
      ("execution", .obj [("command", .str "npx")]),
      ("environment", .obj [("API_KEY", .obj [])])])
    ⟨"svc", false, ["API_KEY"], []⟩
    rfl rfl (by decide) rfl rfl rfl (by decide)
  exact ⟨rfl, h.2.2.1, h.2.2.2⟩

/-! ## C7 — routing-table keys and same-named tools on two servers -/

/-- A two-server configuration: both servers launch via `npx` and declare
no environment requirements. -/
def twoServerConfig (a b : String) : Json :=
  .obj [("servers", .obj [
    (a, .obj [("execution", .obj [("command", .str "npx")])]),
    (b, .obj [("execution", .obj [("command", .str "npx")])])])]

/-- A discovery environment in which every spawn succeeds, every server's
`tools/list` response lists the single tool `t`, and every stop succeeds. -/
def echoToolEnv (t : String) : DiscoveryEnv :=
  { env := fun _ => none
    startB := fun _ => .ok
    listToolsAttempt := fun _ _ =>
      some (.obj [("tools", .arr [.obj [("name", .str t)]])])
    stopB := fun _ => .exitsInGrace }

/-- A manager with no processes and no pending requests. -/
def emptyManager : ManagerState := ⟨[], [], [], []⟩

/-- A registry with nothing discovered yet. -/
def emptyRegistry : RegistryState := ⟨[], [], []⟩

/-- C7: the claim states that the routing table maps display names (server
name + tool name, collision-free by construction) to owning servers, so two
servers exposing a same-named tool keep distinct entries.  The code refutes
this: discovering servers `alpha` and `beta` that both expose tool `t`
leaves `tool_map` with a single entry keyed by the bare name `t`, owned by
`beta`; no display-name key exists and `alpha`'s tool is gone. -/
theorem C7_counterexample :
    (discover_all_tools (echoToolEnv "t") (twoServerConfig "alpha" "beta")
        emptyManager emptyRegistry).reg.tool_map = [(.str "t", "beta")]
    ∧ ((discover_all_tools (echoToolEnv "t") (twoServerConfig "alpha" "beta")
        emptyManager emptyRegistry).reg.tool_map.lookup (.str "alpha_t")) = none
    ∧ ((discover_all_tools (echoToolEnv "t") (twoServerConfig "alpha" "beta")
        emptyManager emptyRegistry).reg.tool_map.lookup (.str "beta_t")) = none
    ∧ (discover_all_tools (echoToolEnv "t") (twoServerConfig "alpha" "beta")
        emptyManager emptyRegistry).reg.tool_map.length = 1
    ∧ ((discover_all_tools (echoToolEnv "t") (twoServerConfig "alpha" "beta")
        emptyManager emptyRegistry).reg.tool_map.lookup (.str "t"))
        ≠ some "alpha" :=
  ⟨rfl, rfl, rfl, rfl, by decide⟩

lemma lookup_listSet_ne {α β : Type} [DecidableEq α] (l : List (α × β))
    (k s : α) (v : β) (h : k ≠ s) : (listSet l k v).lookup s = l.lookup s := by
  induction l with
  | nil =>
      have : (s == k) = false := by
        simp only [beq_eq_false_iff_ne]
        exact fun hc => h hc.symm
      simp [listSet, List.lookup_cons, this]
  | cons p rest ih =>
      obtain ⟨a, b⟩ := p
      by_cases hak : a = k
      · subst hak
        have : (s == a) = false := by
          simp only [beq_eq_false_iff_ne]
          exact fun hc => h hc.symm
        simp [listSet, List.lookup_cons, this]
      · simp only [listSet, if_neg hak]
        rw [List.lookup_cons, List.lookup_cons]
        cases hsa : s == a with
        | true => rfl
        | false => exact ih

lemma listSet_length_of_mem {α β : Type} [DecidableEq α] (l : List (α × β))
    (k : α) (v : β) (h : (l.lookup k).isSome = true) :
    (listSet l k v).length = l.length := by
  induction l with
  | nil => simp [List.lookup] at h
  | cons p rest ih =>
      obtain ⟨a, b⟩ := p
      by_cases hak : a = k
      · simp [listSet, hak]
      · simp only [listSet, if_neg hak, List.length_cons]
        rw [List.lookup_cons] at h
        have : (k == a) = false := by
          simp only [beq_eq_false_iff_ne]
          exact fun hc => hak hc.symm
        rw [this] at h
        rw [ih h]

/-- C7 (amended): the routing table built by discovery is keyed by the bare
tool name, not by a display name.  Registering the same truthy tool name
first for server `a` and then for server `b` makes the single entry for
that name point to `b` — the later registration overwrites the earlier one
in place, adding no new entry.  Display names
(`f"{server_name}_{tool_name}"`) are only constructed at FastMCP
registration time, from whatever single owner survives in `tool_map`. -/
theorem C7_amended_bare_key_overwrite (a b t : String) (r : RegistryState)
    (hab : a ≠ b) (ht : t ≠ "") :
    (registerTools r a [.obj [("name", .str t)]]).tool_map.lookup (.str t)
      = some a
    ∧ (registerTools (registerTools r a [.obj [("name", .str t)]]) b
        [.obj [("name", .str t)]]).tool_map.lookup (.str t) = some b
    ∧ (registerTools (registerTools r a [.obj [("name", .str t)]]) b
        [.obj [("name", .str t)]]).tool_map.length
      = (registerTools r a [.obj [("name", .str t)]]).tool_map.length
    ∧ ∀ env : String → Option String,
        register_all_with_fastmcp (twoServerConfig a b) env ⟨[(.str t, b)], [], []⟩
          = some ([b ++ "_" ++ t], 1, 0) := by
  have httr : (Json.str t).truthy = true := by
    simp [Json.truthy, ht]
  have hr1 : registerTools r a [.obj [("name", .str t)]]
      = { r with
          tool_map := listSet r.tool_map (.str t) a
          tool_schemas := updateSchemas r.tool_schemas a (.str t) (.obj []) } := by
    simp [registerTools, Json.getField, Json.getFieldD, List.lookup, httr]
  have hr2 : registerTools (registerTools r a [.obj [("name", .str t)]]) b
      [.obj [("name", .str t)]]
      = { registerTools r a [.obj [("name", .str t)]] with
          tool_map := listSet (listSet r.tool_map (.str t) a) (.str t) b
          tool_schemas := updateSchemas
            (registerTools r a [.obj [("name", .str t)]]).tool_schemas b
            (.str t) (.obj []) } := by
    rw [hr1]
    simp [registerTools, Json.getField, Json.getFieldD, List.lookup, httr]
  refine ⟨?_, ?_, ?_, ?_⟩
  · rw [hr1]
    exact lookup_listSet_self r.tool_map (.str t) a
  · rw [hr2]
    exact lookup_listSet_self (listSet r.tool_map (Json.str t) a) (Json.str t) b
  · rw [hr2, hr1]
    exact listSet_length_of_mem (listSet r.tool_map (.str t) a) (.str t) b
      (by rw [lookup_listSet_self]; rfl)
  · intro env
    have hba : (b == a) = false := by
      simp only [beq_eq_false_iff_ne]
      exact fun hc => hab hc.symm
    have hchk : check_server_requirements (twoServerConfig a b) env b
        = some ⟨b, true, [], []⟩ := by
      unfold check_server_requirements twoServerConfig
      rw [show (Json.obj [("servers", Json.obj [
            (a, .obj [("execution", .obj [("command", .str "npx")])]),
            (b, .obj [("execution", .obj [("command", .str "npx")])])])]).getFieldD
          "servers" (.obj [])
          = Json.obj [
            (a, .obj [("execution", .obj [("command", .str "npx")])]),
            (b, .obj [("execution", .obj [("command", .str "npx")])])] from rfl]
      rw [show (Json.obj [
            (a, .obj [("execution", .obj [("command", .str "npx")])]),
            (b, .obj [("execution", .obj [("command", .str "npx")])])]).getField b
          = some (.obj [("execution", .obj [("command", .str "npx")])]) by
        simp [Json.getField, List.lookup_cons, hba]]
      rfl
    simp [register_all_with_fastmcp, hchk]

/-- Witness for C7 (amended) at concrete names. -/
theorem C7_amended_witness :
    (registerTools (registerTools emptyRegistry "alpha"
        [.obj [("name", .str "t")]]) "beta"
        [.obj [("name", .str "t")]]).tool_map.lookup (.str "t") = some "beta"
    ∧ register_all_with_fastmcp (twoServerConfig "alpha" "beta")
        (fun _ => none) ⟨[(.str "t", "beta")], [], []⟩
      = some (["beta" ++ "_" ++ "t"], 1, 0) := by
  have h := C7_amended_bare_key_overwrite "alpha" "beta" "t" emptyRegistry
    (by decide) (by decide)
  exact ⟨h.2.1, h.2.2.2 (fun _ => none)⟩

/-! ## C9 — refresh rebuilds tool_map/discovered_tools but not tool_schemas -/

/-- C9: the claim states that after `refresh` the discovery state —
routing map, per-server tool lists and stored tool schemas — contains
exactly the entries of the new pass.  The code refutes this for the
schemas: `refresh_tools` clears only `tool_map` and `discovered_tools`;
after refreshing against a configuration with no servers, a stale
`tool_schemas` entry from before the refresh is still present. -/
theorem C9_counterexample :
    (refresh_tools (echoToolEnv "t") (.obj [("servers", .obj [])]) emptyManager
        ⟨[(.str "x", "old")], [("old", .arr [])],
         [("old", [(.str "x", .obj [])])]⟩).reg.tool_map = []
    ∧ (refresh_tools (echoToolEnv "t") (.obj [("servers", .obj [])]) emptyManager
        ⟨[(.str "x", "old")], [("old", .arr [])],
         [("old", [(.str "x", .obj [])])]⟩).reg.discovered_tools = []
    ∧ (refresh_tools (echoToolEnv "t") (.obj [("servers", .obj [])]) emptyManager
        ⟨[(.str "x", "old")], [("old", .arr [])],
         [("old", [(.str "x", .obj [])])]⟩).reg.tool_schemas
      = [("old", [(.str "x", .obj [])])]
    ∧ (refresh_tools (echoToolEnv "t") (.obj [("servers", .obj [])]) emptyManager
        ⟨[(.str "x", "old")], [("old", .arr [])],
         [("old", [(.str "x", .obj [])])]⟩).reg.tool_schemas ≠ [] :=
  ⟨rfl, rfl, rfl, by decide⟩

lemma registerTools_tool_map_dep (srv : String) (tools : List Json) :
    ∀ r1 r2 : RegistryState, r1.tool_map = r2.tool_map →
      (registerTools r1 srv tools).tool_map
        = (registerTools r2 srv tools).tool_map := by
  induction tools with
  | nil => intro r1 r2 h; exact h
  | cons tool rest ih =>
      intro r1 r2 h
      by_cases htn : ((tool.getField "name").getD .null).truthy = true
      · simp only [registerTools, htn, if_true]
        exact ih _ _ (by simp [h])
      · rw [Bool.not_eq_true] at htn
        simp only [registerTools, htn, Bool.false_eq_true, if_false]
        exact ih _ _ h

lemma registerTools_discovered (srv : String) (tools : List Json) :
    ∀ r : RegistryState,
      (registerTools r srv tools).discovered_tools = r.discovered_tools := by
  induction tools with
  | nil => intro r; rfl
  | cons tool rest ih =>
      intro r
      by_cases htn : ((tool.getField "name").getD .null).truthy = true
      · simp only [registerTools, htn, if_true]
        rw [ih]
      · rw [Bool.not_eq_true] at htn
        simp only [registerTools, htn, Bool.false_eq_true, if_false]
        exact ih r

lemma registerTools_schemas_lookup_ne (srv s : String) (hne : s ≠ srv)
    (tools : List Json) :
    ∀ r : RegistryState,
      (registerTools r srv tools).tool_schemas.lookup s
        = r.tool_schemas.lookup s := by
  induction tools with
  | nil => intro r; rfl
  | cons tool rest ih =>
      intro r
      by_cases htn : ((tool.getField "name").getD .null).truthy = true
      · simp only [registerTools, htn, if_true]
        rw [ih]
        exact lookup_listSet_ne _ srv s _ (fun hc => hne hc.symm)
      · rw [Bool.not_eq_true] at htn
        simp only [registerTools, htn, Bool.false_eq_true, if_false]
        exact ih r

lemma processServer_mgr_dep (denv : DiscoveryEnv) (config : Json) (k : String)
    (cfg : Json) (acc1 acc2 : DiscAcc) (hm : acc1.mgr = acc2.mgr) :
    (processServer denv config acc1 k cfg).mgr
      = (processServer denv config acc2 k cfg).mgr := by
  unfold processServer
  cases hchk : check_server_requirements config denv.env k with
  | none => exact hm
  | some req =>
      by_cases hr : (!req.ready) = true
      · simp only [hr, if_true]
        exact hm
      · rw [Bool.not_eq_true] at hr
        simp only [hr, Bool.false_eq_true, if_false, hm]
        repeat' split
        all_goals rfl

lemma processServer_tool_map_dep (denv : DiscoveryEnv) (config : Json)
    (k : String) (cfg : Json) (acc1 acc2 : DiscAcc)
    (hm : acc1.mgr = acc2.mgr)
    (htm : acc1.reg.tool_map = acc2.reg.tool_map) :
    (processServer denv config acc1 k cfg).reg.tool_map
      = (processServer denv config acc2 k cfg).reg.tool_map := by
  unfold processServer
  cases hchk : check_server_requirements config denv.env k with
  | none => exact htm
  | some req =>
      by_cases hr : (!req.ready) = true
      · simp only [hr, if_true]
        exact htm
      · rw [Bool.not_eq_true] at hr
        simp only [hr, Bool.false_eq_true, if_false, hm]
        repeat' split
        all_goals try exact htm
        all_goals exact registerTools_tool_map_dep k _ _ _ htm

lemma processServer_discovered_dep (denv : DiscoveryEnv) (config : Json)
    (k : String) (cfg : Json) (acc1 acc2 : DiscAcc)
    (hm : acc1.mgr = acc2.mgr)
    (hd : acc1.reg.discovered_tools = acc2.reg.discovered_tools) :
    (processServer denv config acc1 k cfg).reg.discovered_tools
      = (processServer denv config acc2 k cfg).reg.discovered_tools := by
  unfold processServer
  cases hchk : check_server_requirements config denv.env k with
  | none => exact hd
  | some req =>
      by_cases hr : (!req.ready) = true
      · simp only [hr, if_true]
        exact hd
      · rw [Bool.not_eq_true] at hr
        simp only [hr, Bool.false_eq_true, if_false, hm]
        repeat' split
        all_goals try exact hd
        all_goals rw [registerTools_discovered, registerTools_discovered]
        all_goals simp only [hd]

lemma discFold_dep (denv : DiscoveryEnv) (config : Json)
    (servers : List (String × Json)) :
    ∀ acc1 acc2 : DiscAcc, acc1.mgr = acc2.mgr →
      acc1.reg.tool_map = acc2.reg.tool_map →
      acc1.reg.discovered_tools = acc2.reg.discovered_tools →
      (servers.foldl (fun a kv => processServer denv config a kv.1 kv.2)
          acc1).mgr
        = (servers.foldl (fun a kv => processServer denv config a kv.1 kv.2)
          acc2).mgr
      ∧ (servers.foldl (fun a kv => processServer denv config a kv.1 kv.2)
          acc1).reg.tool_map
        = (servers.foldl (fun a kv => processServer denv config a kv.1 kv.2)
          acc2).reg.tool_map
      ∧ (servers.foldl (fun a kv => processServer denv config a kv.1 kv.2)
          acc1).reg.discovered_tools
        = (servers.foldl (fun a kv => processServer denv config a kv.1 kv.2)
          acc2).reg.discovered_tools := by
  induction servers with
  | nil => intro acc1 acc2 hm htm hd; exact ⟨hm, htm, hd⟩
  | cons kv rest ih =>
      intro acc1 acc2 hm htm hd
      rw [List.foldl_cons, List.foldl_cons]
      exact ih _ _ (processServer_mgr_dep denv config kv.1 kv.2 acc1 acc2 hm)
        (processServer_tool_map_dep denv config kv.1 kv.2 acc1 acc2 hm htm)
        (processServer_discovered_dep denv config kv.1 kv.2 acc1 acc2 hm hd)

lemma processServer_schemas_ne (denv : DiscoveryEnv) (config : Json)
    (acc : DiscAcc) (k : String) (cfg : Json) (s : String) (hks : k ≠ s) :
    (processServer denv config acc k cfg).reg.tool_schemas.lookup s
      = acc.reg.tool_schemas.lookup s := by
  unfold processServer
  cases hchk : check_server_requirements config denv.env k with
  | none => rfl
  | some req =>
      by_cases hr : (!req.ready) = true
      · simp only [hr, if_true]
      · rw [Bool.not_eq_true] at hr
        simp only [hr, Bool.false_eq_true, if_false]
        repeat' split
        all_goals try rfl
        all_goals rw [registerTools_schemas_lookup_ne k s (fun hc => hks hc.symm)]

lemma discFold_schemas_ne (denv : DiscoveryEnv) (config : Json)
    (servers : List (String × Json)) (s : String)
    (hs : s ∉ servers.map Prod.fst) :
    ∀ acc : DiscAcc,
      (servers.foldl (fun a kv => processServer denv config a kv.1 kv.2)
          acc).reg.tool_schemas.lookup s
        = acc.reg.tool_schemas.lookup s := by
  induction servers with
  | nil => intro acc; rfl
  | cons kv rest ih =>
      intro acc
      rw [List.map_cons] at hs
      rw [List.foldl_cons]
      rw [ih (fun hc => hs (List.mem_cons_of_mem _ hc))]
      exact processServer_schemas_ne denv config acc kv.1 kv.2 s
        (fun hc => hs (hc ▸ List.mem_cons_self _ _))

/-- C9 (amended): `refresh_tools` clears `tool_map` and `discovered_tools`
before re-running discovery, so those two components are rebuilt wholesale —
their post-refresh contents are independent of the pre-refresh registry.
`tool_schemas`, however, is not cleared: the schema entry of a server not
named in the refreshed configuration survives the refresh unchanged. -/
theorem C9_amended_maps_wholesale_schemas_stale (denv : DiscoveryEnv)
    (config : Json) (mgr : ManagerState) (r r2 : RegistryState) (s : String)
    (hs : s ∉ (config.getFieldD "servers" (.obj [])).objFields.map Prod.fst) :
    (refresh_tools denv config mgr r).reg.tool_map
      = (refresh_tools denv config mgr r2).reg.tool_map
    ∧ (refresh_tools denv config mgr r).reg.discovered_tools
      = (refresh_tools denv config mgr r2).reg.discovered_tools
    ∧ (refresh_tools denv config mgr r).reg.tool_schemas.lookup s
      = r.tool_schemas.lookup s := by
  have hdep := discFold_dep denv config
    ((config.getFieldD "servers" (.obj [])).objFields)
    ⟨mgr, { r with tool_map := [], discovered_tools := [] }, [], []⟩
    ⟨mgr, { r2 with tool_map := [], discovered_tools := [] }, [], []⟩
    rfl rfl rfl
  have hsch := discFold_schemas_ne denv config
    ((config.getFieldD "servers" (.obj [])).objFields) s hs
    ⟨mgr, { r with tool_map := [], discovered_tools := [] }, [], []⟩
  exact ⟨hdep.2.1, hdep.2.2, hsch⟩

/-- Witness for C9 (amended): refreshing two different prior registries
against the two-server configuration yields identical `tool_map` and
`discovered_tools`, while the stale schema entry of the absent server
`old` survives. -/
theorem C9_amended_witness :
    (refresh_tools (echoToolEnv "t") (twoServerConfig "alpha" "beta")
        emptyManager
        ⟨[(.str "x", "old")], [("old", .arr [])],
         [("old", [(.str "x", .obj [])])]⟩).reg.tool_map
      = (refresh_tools (echoToolEnv "t") (twoServerConfig "alpha" "beta")
        emptyManager emptyRegistry).reg.tool_map
    ∧ (refresh_tools (echoToolEnv "t") (twoServerConfig "alpha" "beta")
        emptyManager
        ⟨[(.str "x", "old")], [("old", .arr [])],
         [("old", [(.str "x", .obj [])])]⟩).reg.tool_schemas.lookup "old"
      = some [(.str "x", .obj [])] := by
  have h := C9_amended_maps_wholesale_schemas_stale (echoToolEnv "t")
    (twoServerConfig "alpha" "beta") emptyManager
    ⟨[(.str "x", "old")], [("old", .arr [])], [("old", [(.str "x", .obj [])])]⟩
    emptyRegistry "old" (by decide)
  exact ⟨h.1, by rw [h.2.2]; rfl⟩

end MCPCatalog
